import Mathlib

/-!
Shallow embedding of the window-management core of the `electrum` compositor
(`src/shell/layout/mod.rs`, `src/shell/layout/grab.rs`, `src/shell/grab.rs`,
`src/shell/workspace.rs`, `src/input/mod.rs`), together with theorems settling
the frozen claims about its specification.

Conventions:
* `i32` values are modelled as `Int`; Rust `/` on `i32` truncates toward zero
  and is modelled with `Int.tdiv`.
* `f64` pointer coordinates are modelled as `ℚ`; the Rust `as i32` cast
  (truncation toward zero) is `ratTrunc`, and smithay's `to_i32_round`
  (`f64::round`, half away from zero) is `f64Round`.
* Rust `HashMap` values keyed by strings are modelled as association lists
  with insert-replaces / remove-first semantics (`hmInsert`, `hmRemove`).
* A Rust `panic!` is modelled by an `Option`-valued result being `none`.
-/

namespace Electrum

/-- `smithay::utils::Point<i32, Logical>`. -/
structure Point where
  x : Int
  y : Int
deriving DecidableEq, Repr

/-- `smithay::utils::Size<i32, Logical>`. -/
structure Size where
  w : Int
  h : Int
deriving DecidableEq, Repr

/-- `smithay::utils::Rectangle<i32, Logical>`. -/
structure Rectangle where
  loc : Point
  size : Size
deriving DecidableEq, Repr

/-- `smithay::utils::Point<f64, Logical>` (f64 idealised as ℚ). -/
structure PointQ where
  x : ℚ
  y : ℚ
deriving DecidableEq, Repr

/-- Rust `as i32` on an `f64`: truncation toward zero. -/
def ratTrunc (q : ℚ) : Int := q.num.tdiv q.den

/-- `f64::round` (used by smithay's `to_i32_round`): round half away from zero. -/
def f64Round (q : ℚ) : Int := if 0 ≤ q then ⌊q + 1 / 2⌋ else -⌊-q + 1 / 2⌋

/-- `Point::<f64>::to_i32_round`. -/
def to_i32_round (p : PointQ) : Point := ⟨f64Round p.x, f64Round p.y⟩

/-- `Rectangle::<i32>::to_f64().contains(point)`: half-open on both axes. -/
def containsQ (r : Rectangle) (p : PointQ) : Bool :=
  decide ((r.loc.x : ℚ) ≤ p.x) && decide (p.x < ((r.loc.x + r.size.w : Int) : ℚ)) &&
  decide ((r.loc.y : ℚ) ≤ p.y) && decide (p.y < ((r.loc.y + r.size.h : Int) : ℚ))

/-! ### `src/shell/layout/mod.rs`: `Layout::map_window_internal` -/

/-- The `2/3` computation `v / 3 * 2` on `i32` (truncating division). -/
def twoThirds (v : Int) : Int := v.tdiv 3 * 2

/-- One axis of the "try a more reasonable size" block of `map_window_internal`
(lines 82–111): fires when the baseline extent exceeds 2/3 of the
non-exclusive-zone extent; returns the new extent and whether the branch set
`geo_updated`. -/
def clampAxis (base zone mn mx : Int) : Int × Bool :=
  if base > twoThirds zone then
    let v := twoThirds zone
    let v := if mx ≠ 0 then min mx v else v
    let v := if mn ≠ 0 then max mn v else v
    (min v zone, true)
  else (base, false)

/-- Observable outcome of `map_window_internal`: the size included in the
configure (if any), the position the window is mapped at, and the final
internal `win_geo.size`. -/
structure MapResult where
  proposedSize : Option Size
  position : Point
  finalSize : Size
deriving DecidableEq, Repr

/-- `Layout::map_window_internal` (`src/shell/layout/mod.rs` lines 51–140).
Arguments mirror the data the function reads: the persisted
`WindowUserData.last_geometry`, the window's current `window.geometry()`,
the output's `non_exclusive_zone`, the xdg `min_size`/`max_size` attributes,
and the optional explicit position. -/
def map_window_internal (last_geometry : Option Rectangle) (win_geo : Rectangle)
    (geometry : Rectangle) (min_size max_size : Size)
    (position : Option Point) : MapResult :=
  -- lines 67-71: `geo_updated = win_geo.size == size; win_geo.size = size;`
  let step1 :=
    match last_geometry with
    | some g => (decide (win_geo.size = g.size), g.size)
    | none => (false, win_geo.size)
  let geo_updated := step1.1
  let size := step1.2
  -- lines 82-96 (width) and 97-111 (height)
  let cw := clampAxis size.w geometry.size.w min_size.w max_size.w
  let ch := clampAxis size.h geometry.size.h min_size.h max_size.h
  let finalSize : Size := ⟨cw.1, ch.1⟩
  let geo_updated := geo_updated || cw.2 || ch.2
  -- lines 114-122: explicit position, else persisted location, else centered
  let pos :=
    ((position.orElse fun _ => last_geometry.map (·.loc)).getD
      ⟨geometry.loc.x + geometry.size.w.tdiv 2 - finalSize.w.tdiv 2 + win_geo.loc.x,
       geometry.loc.y + geometry.size.h.tdiv 2 - finalSize.h.tdiv 2 + win_geo.loc.y⟩)
  -- lines 124-136: clear tiled flags, include size iff `geo_updated`
  { proposedSize := if geo_updated then some finalSize else none
    position := pos
    finalSize := finalSize }

/-- Baseline size used by the placement algorithm: persisted size when
present, else the window's current geometry size (lines 62, 68–71). -/
def baselineSize (last_geometry : Option Rectangle) (win_geo : Rectangle) : Size :=
  (last_geometry.map (·.size)).getD win_geo.size

/-! ### `src/shell/grab.rs`: `Shell::drop_move` -/

/-- Observable outcome of `Shell::drop_move`: the explicit position the window
is re-mapped at (none when the window died mid-grab) and whether keyboard
focus was reassigned. -/
structure DropMoveResult where
  remapPosition : Option Point
  focusSet : Bool
deriving DecidableEq, Repr

/-- `Shell::drop_move` (`src/shell/grab.rs` lines 99–126): if the window is
alive, re-map it at `initial_window_location + (pointer_now − initial_cursor)`
rounded to integers, and reassign keyboard focus. -/
def drop_move (alive : Bool) (initial_window_location : Point)
    (initial_cursor_location pointer_now : PointQ) : DropMoveResult :=
  if alive then
    { remapPosition := some (to_i32_round
        ⟨(initial_window_location.x : ℚ) + (pointer_now.x - initial_cursor_location.x),
         (initial_window_location.y : ℚ) + (pointer_now.y - initial_cursor_location.y)⟩)
      focusSet := true }
  else { remapPosition := none, focusSet := false }

/-! ### String-keyed `HashMap` model (association list) -/

/-- `HashMap::contains_key`. -/
def hmContainsKey {α : Type} (m : List (String × α)) (k : String) : Bool :=
  m.any fun e => decide (e.1 = k)

/-- `HashMap::insert`: replaces the value if the key is already present. -/
def hmInsert {α : Type} (m : List (String × α)) (k : String) (v : α) :
    List (String × α) :=
  match m with
  | [] => [(k, v)]
  | e :: rest => if e.1 = k then (k, v) :: rest else e :: hmInsert rest k v

/-- `HashMap::remove`: the removed value (if any) and the remaining map. -/
def hmRemove {α : Type} (m : List (String × α)) (k : String) :
    Option α × List (String × α) :=
  match m with
  | [] => (none, [])
  | e :: rest =>
    if e.1 = k then (some e.2, rest)
    else
      let r := hmRemove rest k
      (r.1, e :: r.2)

/-- `HashMap::get`. -/
def hmGet {α : Type} (m : List (String × α)) (k : String) : Option α :=
  (m.find? fun e => decide (e.1 = k)).map Prod.snd

/-! ### `src/shell/workspace.rs`: fullscreen slots and delegated requests -/

/-- Windows are identified by a numeric id in this model. -/
abbrev WindowId := Nat

/-- `Workspace::fullscreen.values().any(|w| w == window)`. -/
def window_is_fullscreen (fullscreen : List (String × WindowId)) (window : WindowId) : Bool :=
  fullscreen.any fun e => decide (e.2 = window)

/-- `Workspace::fullscreen_request` (`src/shell/workspace.rs` lines 110–133):
returns the updated fullscreen map and whether a configure was sent (the
`Kind::Xdg` pattern is irrefutable, so the body always runs past the early
return). -/
def fullscreen_request (fullscreen : List (String × WindowId)) (window : WindowId)
    (output_name : String) : List (String × WindowId) × Bool :=
  if hmContainsKey fullscreen output_name then (fullscreen, false)
  else (hmInsert fullscreen output_name window, true)

/-- `crate::runtime::messages::RuntimeMessage` (policy-delegation payloads). -/
inductive RuntimeMessage
  | MaximizeRequest (window : WindowId) (output : String)
  | UnmaximizeRequest (window : WindowId)
  | ResizeRequest (window : WindowId) (serial : Nat) (edges : Nat)
  | UnfullscreenRequest (window : WindowId)
deriving DecidableEq, Repr

/-- `Workspace::maximize_request` (lines 60–71): the messages pushed onto the
policy channel. -/
def maximize_request (fullscreen : List (String × WindowId)) (window : WindowId)
    (output : String) : List RuntimeMessage :=
  if window_is_fullscreen fullscreen window then []
  else [RuntimeMessage.MaximizeRequest window output]

/-- `Workspace::resize_request` (lines 87–108): the messages pushed onto the
policy channel. -/
def resize_request (fullscreen : List (String × WindowId)) (window : WindowId)
    (serial edges : Nat) : List RuntimeMessage :=
  if window_is_fullscreen fullscreen window then []
  else [RuntimeMessage.ResizeRequest window serial edges]

/-! ### `src/shell/grab.rs`: `Shell::move_request` -/

/-- State recorded in the seat's user data when a move grab starts. -/
structure MoveGrabState where
  window : WindowId
  initial_cursor_location : PointQ
  initial_window_location : Point
deriving DecidableEq, Repr

/-- The per-workspace state `move_request` reads and writes: the fullscreen
slots and the mapped windows with their locations. -/
structure Workspace where
  fullscreen : List (String × WindowId)
  windows : List (WindowId × Point)
deriving DecidableEq, Repr

/-- `Space::unmap_window`. -/
def space_unmap (windows : List (WindowId × Point)) (w : WindowId) :
    List (WindowId × Point) :=
  windows.filter fun e => decide (e.1 ≠ w)

/-- `Shell::move_request` (`src/shell/grab.rs` lines 35–97): if the window
occupies a fullscreen slot, return without starting a grab or touching any
state; otherwise compute the grab's initial window location (with the
proportional-keeping formula of lines 63–74 when the window is maximized —
whose intermediate remap is subsumed by the final `unmap_window`), unmap the
window and start the grab. -/
def move_request (ws : Workspace) (window : WindowId) (maximized : Bool)
    (pointer_loc : PointQ) (output_geometry : Rectangle) (pending_size : Option Size) :
    Workspace × Option MoveGrabState :=
  if window_is_fullscreen ws.fullscreen window then (ws, none)
  else
    let current := ((ws.windows.find? fun e => decide (e.1 = window)).map Prod.snd).getD ⟨0, 0⟩
    let initial_window_location :=
      if maximized then
        let ratio : ℚ := pointer_loc.x / (output_geometry.size.w : ℚ)
        match pending_size with
        | some size => to_i32_round ⟨pointer_loc.x - (size.w : ℚ) * ratio, pointer_loc.y⟩
        | none => to_i32_round pointer_loc
      else current
    ({ ws with windows := space_unmap ws.windows window },
     some ⟨window, pointer_loc, initial_window_location⟩)

/-! ### `src/shell/layout/grab.rs`: resize grab -/

/-- Bitflags `ResizeEdge` (`src/shell/layout/grab.rs` lines 23–35). -/
def edgeTOP : Nat := 1

def edgeBOTTOM : Nat := 2

def edgeLEFT : Nat := 4

def edgeRIGHT : Nat := 8

/-- `bitflags::intersects`. -/
def edgeIntersects (a b : Nat) : Bool := decide (a &&& b ≠ 0)

def i32_max : Int := 2147483647

/-- `ResizeData` (lines 51–60). -/
structure ResizeData where
  edges : Nat
  initial_window_location : Point
  initial_window_size : Size
deriving DecidableEq, Repr

/-- `ResizeState` (lines 62–75). -/
inductive ResizeState
  | NotResizing
  | Resizing (data : ResizeData)
  | WaitingForFinalAck (data : ResizeData) (serial : Nat)
  | WaitingForCommit (data : ResizeData)
deriving DecidableEq, Repr

/-- A size/state configure proposal sent to the client. -/
structure Configure where
  size : Size
  resizing : Bool
deriving DecidableEq, Repr

/-- `ResizeSurfaceGrab::motion` (lines 92–164), live-window path: the new
negotiated size stored in `last_window_size` and proposed with the resizing
flag set. -/
def resize_motion (edges : Nat) (start_location event_location : PointQ)
    (initial_window_size min_size max_size : Size) : Size :=
  let dx := event_location.x - start_location.x
  let dy := event_location.y - start_location.y
  let new_window_width :=
    if edgeIntersects edges (edgeLEFT ||| edgeRIGHT) then
      let dx := if edgeIntersects edges edgeLEFT then -dx else dx
      ratTrunc ((initial_window_size.w : ℚ) + dx)
    else initial_window_size.w
  let new_window_height :=
    if edgeIntersects edges (edgeTOP ||| edgeBOTTOM) then
      let dy := if edgeIntersects edges edgeTOP then -dy else dy
      ratTrunc ((initial_window_size.h : ℚ) + dy)
    else initial_window_size.h
  let min_width := max min_size.w 1
  let min_height := max min_size.h 1
  let max_width := if max_size.w = 0 then i32_max else max_size.w
  let max_height := if max_size.h = 0 then i32_max else max_size.h
  ⟨min max_width (max min_width new_window_width),
   min max_height (max min_height new_window_height)⟩

/-- Observable outcome of `ResizeSurfaceGrab::button`. -/
structure ButtonOutcome where
  unset_grab : Bool
  configure : Option Configure
  new_state : ResizeState
deriving DecidableEq, Repr

/-- `ResizeSurfaceGrab::button` (lines 166–204); `none` models the `panic!`
on a sub-state other than `Resizing`. -/
def resize_button (current_pressed_empty : Bool) (alive : Bool)
    (last_window_size : Size) (state : ResizeState) (serial : Nat) :
    Option ButtonOutcome :=
  if current_pressed_empty then
    if alive then
      match state with
      | ResizeState.Resizing d =>
        some ⟨true, some ⟨last_window_size, false⟩, ResizeState.WaitingForFinalAck d serial⟩
      | _ => none
    else some ⟨true, none, state⟩
  else some ⟨false, none, state⟩

/-- The per-axis value "initial size plus signed delta when the axis is
active" that `ResizeSurfaceGrab::motion` feeds into the min/max clamp. -/
def activeAxisValue (active negate : Bool) (initial : Int) (d : ℚ) : Int :=
  if active then ratTrunc ((initial : ℚ) + (if negate then -d else d)) else initial

/-! ### Association-list lemmas -/

lemma hmGet_cons {α : Type} (e : String × α) (rest : List (String × α)) (k : String) :
    hmGet (e :: rest) k = if e.1 = k then some e.2 else hmGet rest k := by
  by_cases h : e.1 = k <;> simp [hmGet, List.find?, h]

lemma hmContainsKey_cons {α : Type} (e : String × α) (rest : List (String × α)) (k : String) :
    hmContainsKey (e :: rest) k = (decide (e.1 = k) || hmContainsKey rest k) := by
  simp [hmContainsKey]

lemma hmContainsKey_iff_mem_keys {α : Type} (m : List (String × α)) (k : String) :
    hmContainsKey m k = true ↔ k ∈ m.map Prod.fst := by
  induction m with
  | nil => simp [hmContainsKey]
  | cons e rest ih =>
    rw [hmContainsKey_cons, List.map_cons, List.mem_cons]
    by_cases h : e.1 = k
    · simp [h]
    · have hne : ¬k = e.1 := fun hh => h hh.symm
      rw [show decide (e.1 = k) = false by simp [h], Bool.false_or, ih]
      simp [hne]

lemma hmGet_hmInsert_self {α : Type} (m : List (String × α)) (k : String) (v : α) :
    hmGet (hmInsert m k v) k = some v := by
  induction m with
  | nil => simp [hmInsert, hmGet_cons]
  | cons e rest ih =>
    by_cases h : e.1 = k
    · simp [hmInsert, h, hmGet_cons]
    · simp only [hmInsert, if_neg h]
      rw [hmGet_cons, if_neg h]
      exact ih

lemma hmGet_hmInsert_ne {α : Type} (m : List (String × α)) (k k' : String) (v : α)
    (h : k' ≠ k) : hmGet (hmInsert m k v) k' = hmGet m k' := by
  have h' : k ≠ k' := Ne.symm h
  induction m with
  | nil => simp [hmInsert, hmGet_cons, hmGet, h']
  | cons e rest ih =>
    by_cases he : e.1 = k
    · subst he
      have he' : e.1 ≠ k' := h'
      simp [hmInsert, hmGet_cons, he']
    · simp only [hmInsert, if_neg he]
      rw [hmGet_cons, hmGet_cons]
      by_cases he' : e.1 = k' <;> simp [he', ih]

lemma hmContainsKey_hmInsert_self {α : Type} (m : List (String × α)) (k : String) (v : α) :
    hmContainsKey (hmInsert m k v) k = true := by
  induction m with
  | nil => simp [hmInsert, hmContainsKey]
  | cons e rest ih =>
    by_cases h : e.1 = k
    · simp [hmInsert, h, hmContainsKey_cons]
    · simp only [hmInsert, if_neg h]
      rw [hmContainsKey_cons, ih]
      simp

lemma hmInsert_keys {α : Type} (m : List (String × α)) (k : String) (v : α) :
    (hmInsert m k v).map Prod.fst =
      if hmContainsKey m k then m.map Prod.fst else m.map Prod.fst ++ [k] := by
  induction m with
  | nil => simp [hmInsert, hmContainsKey]
  | cons e rest ih =>
    by_cases h : e.1 = k
    · simp [hmInsert, h, hmContainsKey_cons]
    · rw [hmContainsKey_cons]
      by_cases hc : hmContainsKey rest k = true <;>
        simp [hmInsert, h, hc, ih]

lemma hmInsert_keys_nodup {α : Type} (m : List (String × α)) (k : String) (v : α)
    (h : (m.map Prod.fst).Nodup) : ((hmInsert m k v).map Prod.fst).Nodup := by
  rw [hmInsert_keys]
  by_cases hc : hmContainsKey m k = true
  · simpa [hc] using h
  · have hk : k ∉ m.map Prod.fst := fun hmem =>
      hc ((hmContainsKey_iff_mem_keys m k).2 hmem)
    have hb : hmContainsKey m k = false := by
      cases hcc : hmContainsKey m k
      · rfl
      · exact absurd hcc hc
    rw [hb]
    simp only [Bool.false_eq_true, if_false]
    rw [List.nodup_append]
    exact ⟨h, List.nodup_singleton k, fun a ha hb' => by
      simp only [List.mem_singleton] at hb'
      exact hk (hb' ▸ ha)⟩

/-! ### `src/input/mod.rs`: `Devices` capability registry -/

/-- `smithay::backend::input::DeviceCapability`. -/
inductive DeviceCapability
  | Keyboard
  | Pointer
  | Touch
  | TabletTool
  | TabletPad
  | Gesture
  | Switch
deriving DecidableEq, Repr

/-- An input device: a stable id and its reported capabilities. -/
structure Device where
  id : String
  caps : List DeviceCapability
deriving DecidableEq, Repr

/-- `Device::has_capability`. -/
def has_capability (d : Device) (c : DeviceCapability) : Bool := d.caps.contains c

/-- The registry behind `Devices(RefCell<HashMap<String, Vec<DeviceCapability>>>)`. -/
abbrev DevMap := List (String × List DeviceCapability)

/-- `map.values().flatten()`: the union (with multiplicity) of all stored
capability lists. -/
def union_caps : DevMap → List DeviceCapability
  | [] => []
  | e :: rest => e.2 ++ union_caps rest

/-- `Devices::add_device` (`src/input/mod.rs` lines 49–64): the returned
"newly gained" capabilities and the updated registry. -/
def add_device (m : DevMap) (d : Device) : List DeviceCapability × DevMap :=
  let caps := [DeviceCapability.Keyboard, DeviceCapability.Pointer].filter
    fun c => has_capability d c
  let new_caps := caps.filter fun c => (union_caps m).all fun has => decide (c ≠ has)
  (new_caps, hmInsert m d.id caps)

/-- `Devices::remove_device` (lines 66–74): the returned "newly lost"
capabilities and the updated registry. -/
def remove_device (m : DevMap) (d : Device) : List DeviceCapability × DevMap :=
  let r := hmRemove m d.id
  ((r.1.getD []).filter fun c => (union_caps r.2).all fun has => decide (c ≠ has), r.2)

/-- A device's capabilities restricted to the supported set
`{Keyboard, Pointer}`. -/
def supported_caps (caps : List DeviceCapability) : List DeviceCapability :=
  [DeviceCapability.Keyboard, DeviceCapability.Pointer].filter fun c => caps.contains c

/-- An add/remove event for the device with the given id. -/
inductive DevOp
  | add (id : String)
  | remove (id : String)
deriving DecidableEq, Repr

/-- The registry after an arbitrary interleaving of add/remove events, where
`devs` gives each device id's fixed reported capabilities. -/
def run_devices (devs : String → List DeviceCapability) : List DevOp → DevMap
  | [] => []
  | DevOp.add id :: ops => (add_device (run_devices devs ops) ⟨id, devs id⟩).2
  | DevOp.remove id :: ops => (remove_device (run_devices devs ops) ⟨id, devs id⟩).2

/-! ### `src/input/mod.rs`: relative pointer motion and focus-under -/

/-- An output: stable name and current geometry. -/
structure OutputM where
  name : String
  geometry : Rectangle
deriving DecidableEq, Repr

/-- The `InputEvent::PointerMotion` arm (`src/input/mod.rs` lines 136–192):
adds the delta to the pointer position, picks the first output containing the
new position (keeping the previously active output when none does), and
clamps each coordinate by `0.0f64.max(position.x).min(origin + size)`.
Returns the active output and the clamped position. -/
def pointer_motion (outputs : List OutputM) (current_output : OutputM)
    (current_location delta : PointQ) : OutputM × PointQ :=
  let position : PointQ := ⟨current_location.x + delta.x, current_location.y + delta.y⟩
  let output := (outputs.find? fun o => containsQ o.geometry position).getD current_output
  let g := output.geometry
  ⟨output,
   ⟨min (max 0 position.x) (((g.loc.x + g.size.w : Int) : ℚ)),
    min (max 0 position.y) (((g.loc.y + g.size.h : Int) : ℚ))⟩⟩

/-- `smithay::wayland::shell::wlr_layer::Layer`. -/
inductive WlrLayer
  | Background
  | Bottom
  | Top
  | Overlay
deriving DecidableEq, Repr

/-- A mapped layer surface: its band, geometry in the layer map, whether it
accepts keyboard focus, its surface id, and whether `surface_under` at the
event position returns a surface. -/
structure LayerSurface where
  layer : WlrLayer
  geometry : Rectangle
  can_receive_keyboard_focus : Bool
  surface : Nat
  surface_at : Bool
deriving DecidableEq, Repr

/-- `LayerMap::layer_under`: the topmost layer of the band containing the
position. -/
def layer_under (layers : List LayerSurface) (band : WlrLayer) (pos : PointQ) :
    Option LayerSurface :=
  layers.find? fun l => decide (l.layer = band) && containsQ l.geometry pos

/-- The focus-under computation of the `PointerButton` arm when the output has
a fullscreen window (`src/input/mod.rs` lines 259–283): consult the Overlay
band only; a hit layer yields its surface only if it can receive keyboard
focus (and its `surface_under` hits); only when no Overlay layer is at the
position is the fullscreen window itself hit-tested. -/
def focus_under_fullscreen (layers : List LayerSurface) (relative_pos : PointQ)
    (fullscreen_surface : Nat) (fullscreen_surface_at : Bool) : Option Nat :=
  match layer_under layers WlrLayer.Overlay relative_pos with
  | some l =>
    if l.can_receive_keyboard_focus then
      (if l.surface_at then some l.surface else none)
    else none
  | none => if fullscreen_surface_at then some fullscreen_surface else none

/-! ### Device-registry lemmas -/

lemma add_device_snd (m : DevMap) (d : Device) :
    (add_device m d).2 = hmInsert m d.id (supported_caps d.caps) := rfl

lemma remove_device_snd (m : DevMap) (d : Device) :
    (remove_device m d).2 = (hmRemove m d.id).2 := rfl

lemma mem_union_caps (m : DevMap) (c : DeviceCapability) :
    c ∈ union_caps m ↔ ∃ e, e ∈ m ∧ c ∈ e.2 := by
  induction m with
  | nil => simp [union_caps]
  | cons e rest ih =>
    simp only [union_caps, List.mem_append, ih, List.mem_cons]
    constructor
    · rintro (h | ⟨p, hp, hc⟩)
      · exact ⟨e, Or.inl rfl, h⟩
      · exact ⟨p, Or.inr hp, hc⟩
    · rintro ⟨p, hp | hp, hc⟩
      · exact Or.inl (hp ▸ hc)
      · exact Or.inr ⟨p, hp, hc⟩

lemma notin_union_all (m : DevMap) (c : DeviceCapability) :
    ((union_caps m).all fun has => decide (c ≠ has)) = true ↔ c ∉ union_caps m := by
  simp only [List.all_eq_true, decide_eq_true_eq]
  constructor
  · intro h hc
    exact h c hc rfl
  · intro h x hx he
    exact h (he ▸ hx)

lemma add_device_fst_mem (m : DevMap) (d : Device) (c : DeviceCapability) :
    c ∈ (add_device m d).1 ↔ c ∈ supported_caps d.caps ∧ c ∉ union_caps m := by
  show c ∈ (supported_caps d.caps).filter _ ↔ _
  rw [List.mem_filter]
  exact and_congr Iff.rfl (notin_union_all m c)

lemma hmRemove_mem_union (m : DevMap) (k : String) (c : DeviceCapability) :
    c ∈ union_caps m ↔
      c ∈ (hmRemove m k).1.getD [] ∨ c ∈ union_caps (hmRemove m k).2 := by
  induction m with
  | nil => simp [hmRemove, union_caps]
  | cons e rest ih =>
    by_cases h : e.1 = k
    · simp [hmRemove, h, union_caps, List.mem_append]
    · simp only [hmRemove, if_neg h, union_caps, List.mem_append, ih]
      tauto

lemma remove_device_fst_mem (m : DevMap) (d : Device) (c : DeviceCapability) :
    c ∈ (remove_device m d).1 ↔
      c ∈ union_caps m ∧ c ∉ union_caps (remove_device m d).2 := by
  show c ∈ ((hmRemove m d.id).1.getD []).filter _ ↔
    c ∈ union_caps m ∧ c ∉ union_caps (hmRemove m d.id).2
  rw [List.mem_filter, notin_union_all]
  constructor
  · rintro ⟨hold, hnot⟩
    exact ⟨(hmRemove_mem_union m d.id c).2 (Or.inl hold), hnot⟩
  · rintro ⟨hin, hnot⟩
    rcases (hmRemove_mem_union m d.id c).1 hin with h | h
    · exact ⟨h, hnot⟩
    · exact absurd h hnot

lemma mem_hmInsert {α : Type} (m : List (String × α)) (k : String) (v : α) (e : String × α)
    (h : e ∈ hmInsert m k v) : e ∈ m ∨ e = (k, v) := by
  induction m with
  | nil =>
    simp only [hmInsert, List.mem_singleton] at h
    exact Or.inr h
  | cons a rest ih =>
    by_cases ha : a.1 = k
    · simp only [hmInsert, if_pos ha, List.mem_cons] at h
      rcases h with h | h
      · exact Or.inr h
      · exact Or.inl (List.mem_cons_of_mem a h)
    · simp only [hmInsert, if_neg ha, List.mem_cons] at h
      rcases h with h | h
      · exact Or.inl (h ▸ List.mem_cons_self a rest)
      · rcases ih h with h' | h'
        · exact Or.inl (List.mem_cons_of_mem a h')
        · exact Or.inr h'

lemma mem_hmRemove_snd {α : Type} (m : List (String × α)) (k : String) (e : String × α)
    (h : e ∈ (hmRemove m k).2) : e ∈ m := by
  induction m with
  | nil => simp [hmRemove] at h
  | cons a rest ih =>
    by_cases ha : a.1 = k
    · simp only [hmRemove, if_pos ha] at h
      exact List.mem_cons_of_mem a h
    · simp only [hmRemove, if_neg ha, List.mem_cons] at h
      rcases h with h | h
      · exact h ▸ List.mem_cons_self a rest
      · exact List.mem_cons_of_mem a (ih h)

lemma hmRemove_snd_sublist {α : Type} (m : List (String × α)) (k : String) :
    (hmRemove m k).2.Sublist m := by
  induction m with
  | nil => simp [hmRemove]
  | cons a rest ih =>
    by_cases ha : a.1 = k
    · simp only [hmRemove, if_pos ha]
      exact List.sublist_cons_self a rest
    · simp only [hmRemove, if_neg ha]
      exact List.Sublist.cons₂ a ih

lemma run_devices_entries (devs : String → List DeviceCapability) (ops : List DevOp) :
    ∀ e, e ∈ run_devices devs ops → e.2 = supported_caps (devs e.1) := by
  induction ops with
  | nil =>
    intro e he
    simp [run_devices] at he
  | cons op ops ih =>
    intro e he
    cases op with
    | add id =>
      rw [show run_devices devs (DevOp.add id :: ops) =
        (add_device (run_devices devs ops) ⟨id, devs id⟩).2 from rfl, add_device_snd] at he
      rcases mem_hmInsert _ _ _ _ he with h | h
      · exact ih e h
      · subst h
        rfl
    | remove id =>
      rw [show run_devices devs (DevOp.remove id :: ops) =
        (remove_device (run_devices devs ops) ⟨id, devs id⟩).2 from rfl,
        remove_device_snd] at he
      exact ih e (mem_hmRemove_snd _ _ _ he)

lemma run_devices_keys_nodup (devs : String → List DeviceCapability) (ops : List DevOp) :
    ((run_devices devs ops).map Prod.fst).Nodup := by
  induction ops with
  | nil => simp [run_devices]
  | cons op ops ih =>
    cases op with
    | add id =>
      rw [show run_devices devs (DevOp.add id :: ops) =
        (add_device (run_devices devs ops) ⟨id, devs id⟩).2 from rfl, add_device_snd]
      exact hmInsert_keys_nodup _ _ _ ih
    | remove id =>
      rw [show run_devices devs (DevOp.remove id :: ops) =
        (remove_device (run_devices devs ops) ⟨id, devs id⟩).2 from rfl, remove_device_snd]
      exact List.Nodup.sublist ((hmRemove_snd_sublist _ _).map Prod.fst) ih

lemma mem_union_hmInsert (m : DevMap) (k : String) (v : List DeviceCapability)
    (c : DeviceCapability) (hm : (m.map Prod.fst).Nodup) :
    c ∈ union_caps (hmInsert m k v) ↔
      c ∈ v ∨ ∃ e, e ∈ m ∧ e.1 ≠ k ∧ c ∈ e.2 := by
  induction m with
  | nil => simp [hmInsert, union_caps]
  | cons a rest ih =>
    have hm' : a.1 ∉ rest.map Prod.fst ∧ (rest.map Prod.fst).Nodup := by
      simpa [List.nodup_cons] using hm
    rcases hm' with ⟨hak, hrest⟩
    by_cases h : a.1 = k
    · subst h
      simp only [hmInsert, if_pos rfl, union_caps, List.mem_append]
      constructor
      · rintro (hv | hu)
        · exact Or.inl hv
        · rcases (mem_union_caps rest c).1 hu with ⟨e, he, hce⟩
          refine Or.inr ⟨e, List.mem_cons_of_mem a he, ?_, hce⟩
          intro hek
          exact hak (hek ▸ List.mem_map_of_mem Prod.fst he)
      · rintro (hv | ⟨e, he, hek, hce⟩)
        · exact Or.inl hv
        · rcases List.mem_cons.1 he with rfl | he'
          · exact absurd rfl hek
          · exact Or.inr ((mem_union_caps rest c).2 ⟨e, he', hce⟩)
    · simp only [hmInsert, if_neg h, union_caps, List.mem_append]
      rw [ih hrest]
      constructor
      · rintro (ha | hv | ⟨e, he, hek, hce⟩)
        · exact Or.inr ⟨a, List.mem_cons_self a rest, h, ha⟩
        · exact Or.inl hv
        · exact Or.inr ⟨e, List.mem_cons_of_mem a he, hek, hce⟩
      · rintro (hv | ⟨e, he, hek, hce⟩)
        · exact Or.inr (Or.inl hv)
        · rcases List.mem_cons.1 he with rfl | he'
          · exact Or.inl hce
          · exact Or.inr (Or.inr ⟨e, he', hek, hce⟩)

/-! ### Hit-test lemmas -/

lemma containsQ_eq_false_of_lt (r : Rectangle) (p : PointQ)
    (h : p.x < ((r.loc.x : Int) : ℚ)) : containsQ r p = false := by
  simp only [containsQ]
  rw [decide_eq_false (not_le.2 h)]
  simp

lemma layer_under_filter_overlay (layers : List LayerSurface) (pos : PointQ) :
    layer_under layers WlrLayer.Overlay pos =
      layer_under (layers.filter fun l => decide (l.layer = WlrLayer.Overlay))
        WlrLayer.Overlay pos := by
  induction layers with
  | nil => rfl
  | cons l rest ih =>
    by_cases hl : l.layer = WlrLayer.Overlay
    · by_cases hc : containsQ l.geometry pos = true
      · have hcond : (decide (l.layer = WlrLayer.Overlay) && containsQ l.geometry pos) = true := by
          simp [hl, hc]
        unfold layer_under
        rw [List.filter_cons, if_pos (by simp [hl]),
          @List.find?_cons_of_pos _ (fun x => decide (x.layer = WlrLayer.Overlay) &&
            containsQ x.geometry pos) l rest hcond,
          @List.find?_cons_of_pos _ (fun x => decide (x.layer = WlrLayer.Overlay) &&
            containsQ x.geometry pos) l
            (List.filter (fun x => decide (x.layer = WlrLayer.Overlay)) rest) hcond]
      · have hcond : ¬((decide (l.layer = WlrLayer.Overlay) && containsQ l.geometry pos) = true) := by
          simp [hc]
        unfold layer_under at ih ⊢
        rw [List.filter_cons, if_pos (by simp [hl]),
          @List.find?_cons_of_neg _ (fun x => decide (x.layer = WlrLayer.Overlay) &&
            containsQ x.geometry pos) l rest hcond,
          @List.find?_cons_of_neg _ (fun x => decide (x.layer = WlrLayer.Overlay) &&
            containsQ x.geometry pos) l
            (List.filter (fun x => decide (x.layer = WlrLayer.Overlay)) rest) hcond]
        exact ih
    · have hcond : ¬((decide (l.layer = WlrLayer.Overlay) && containsQ l.geometry pos) = true) := by
        simp [hl]
      unfold layer_under at ih ⊢
      rw [List.filter_cons, if_neg (by simp [hl]),
        @List.find?_cons_of_neg _ (fun x => decide (x.layer = WlrLayer.Overlay) &&
          containsQ x.geometry pos) l rest hcond]
      exact ih

/-! ### Helper lemmas for the placement clamp -/

lemma map_window_internal_finalSize (last_geometry : Option Rectangle)
    (win_geo geometry : Rectangle) (min_size max_size : Size) (position : Option Point) :
    (map_window_internal last_geometry win_geo geometry min_size max_size position).finalSize =
      ⟨(clampAxis (baselineSize last_geometry win_geo).w geometry.size.w min_size.w max_size.w).1,
       (clampAxis (baselineSize last_geometry win_geo).h geometry.size.h min_size.h max_size.h).1⟩ := by
  cases last_geometry <;> rfl

lemma clampAxis_eq (base zone mn mx : Int) (_hmn : 0 ≤ mn) (hmx : 0 ≤ mx) (hz : 0 ≤ zone)
    (h : base > twoThirds zone) :
    (clampAxis base zone mn mx).1 =
      min zone (max mn (if mx = 0 then twoThirds zone else min mx (twoThirds zone))) := by
  have htt : 0 ≤ twoThirds zone := by
    have h3 : (0 : Int) ≤ zone.tdiv 3 := Int.tdiv_nonneg hz (by norm_num)
    unfold twoThirds
    omega
  unfold clampAxis
  rw [if_pos h]
  by_cases hx : mx = 0 <;> by_cases hn : mn = 0 <;> simp [hx, hn] <;> omega

lemma ratTrunc_intCast (n : Int) : ratTrunc ((n : ℚ)) = n := by
  simp [ratTrunc, Rat.num_intCast, Rat.den_intCast, Int.tdiv_one]

lemma resize_motion_w (edges : Nat) (s ev : PointQ) (init mn mx : Size) :
    (resize_motion edges s ev init mn mx).w =
      min (if mx.w = 0 then i32_max else mx.w)
        (max (max mn.w 1)
          (activeAxisValue (edgeIntersects edges (edgeLEFT ||| edgeRIGHT))
            (edgeIntersects edges edgeLEFT) init.w (ev.x - s.x))) := rfl

lemma resize_motion_h (edges : Nat) (s ev : PointQ) (init mn mx : Size) :
    (resize_motion edges s ev init mn mx).h =
      min (if mx.h = 0 then i32_max else mx.h)
        (max (max mn.h 1)
          (activeAxisValue (edgeIntersects edges (edgeTOP ||| edgeBOTTOM))
            (edgeIntersects edges edgeTOP) init.h (ev.y - s.y))) := rfl

/-! ### Claim theorems -/

/-- C1: the claim states a size proposal is included in the configure iff the
computed size differs from the window's current size. The code
(`geo_updated = win_geo.size == size`, line 69) has the comparison inverted:
with persisted size 200×100 and current size 400×300 the committed size
changes to 200×100 yet no proposal is sent, while with persisted size equal
to the current 400×300 a redundant proposal of the unchanged size is sent. -/
theorem C1_size_proposal_inverted :
    (map_window_internal (some ⟨⟨0, 0⟩, ⟨200, 100⟩⟩) ⟨⟨0, 0⟩, ⟨400, 300⟩⟩
        ⟨⟨0, 0⟩, ⟨1920, 1080⟩⟩ ⟨0, 0⟩ ⟨0, 0⟩ (some ⟨10, 10⟩) =
      { proposedSize := none, position := ⟨10, 10⟩, finalSize := ⟨200, 100⟩ }) ∧
    Size.mk 200 100 ≠ Size.mk 400 300 ∧
    (map_window_internal (some ⟨⟨5, 6⟩, ⟨400, 300⟩⟩) ⟨⟨0, 0⟩, ⟨400, 300⟩⟩
        ⟨⟨0, 0⟩, ⟨1920, 1080⟩⟩ ⟨0, 0⟩ ⟨0, 0⟩ (some ⟨10, 10⟩)).proposedSize =
      some ⟨400, 300⟩ := by
  refine ⟨by decide, by decide, by decide⟩

/-- C3: when the baseline extent exceeds 2/3 of the non-exclusive-zone extent,
the placed extent is `min(zone, max(min_size, min(max_size-or-unbounded, 2/3
zone)))`, independently per axis; and the 1920×1080 zone example with
max-size 4096×4096 is placed at exactly 1280×720, centered. -/
theorem C3_placement_clamp :
    (∀ (last_geometry : Option Rectangle) (win_geo geometry : Rectangle)
        (min_size max_size : Size) (position : Option Point),
      0 ≤ min_size.w → 0 ≤ max_size.w → 0 ≤ geometry.size.w →
      (baselineSize last_geometry win_geo).w > twoThirds geometry.size.w →
      (map_window_internal last_geometry win_geo geometry min_size max_size position).finalSize.w =
        min geometry.size.w (max min_size.w
          (if max_size.w = 0 then twoThirds geometry.size.w
           else min max_size.w (twoThirds geometry.size.w)))) ∧
    (∀ (last_geometry : Option Rectangle) (win_geo geometry : Rectangle)
        (min_size max_size : Size) (position : Option Point),
      0 ≤ min_size.h → 0 ≤ max_size.h → 0 ≤ geometry.size.h →
      (baselineSize last_geometry win_geo).h > twoThirds geometry.size.h →
      (map_window_internal last_geometry win_geo geometry min_size max_size position).finalSize.h =
        min geometry.size.h (max min_size.h
          (if max_size.h = 0 then twoThirds geometry.size.h
           else min max_size.h (twoThirds geometry.size.h)))) ∧
    map_window_internal none ⟨⟨0, 0⟩, ⟨2000, 2000⟩⟩ ⟨⟨0, 0⟩, ⟨1920, 1080⟩⟩
        ⟨0, 0⟩ ⟨4096, 4096⟩ none =
      { proposedSize := some ⟨1280, 720⟩, position := ⟨320, 180⟩, finalSize := ⟨1280, 720⟩ } := by
  refine ⟨?_, ?_, by decide⟩
  · intro l w g mn mx p hmn hmx hz h
    rw [map_window_internal_finalSize]
    exact clampAxis_eq _ _ _ _ hmn hmx hz h
  · intro l w g mn mx p hmn hmx hz h
    rw [map_window_internal_finalSize]
    exact clampAxis_eq _ _ _ _ hmn hmx hz h

/-- C3 witness: the general clamp formula applied at the concrete
1920×1080-zone example. -/
theorem C3_placement_clamp_witness :
    (0 : Int) ≤ 0 ∧ (0 : Int) ≤ 4096 ∧ (0 : Int) ≤ 1920 ∧
    (baselineSize none ⟨⟨0, 0⟩, ⟨2000, 2000⟩⟩).w > twoThirds 1920 ∧
    (map_window_internal none ⟨⟨0, 0⟩, ⟨2000, 2000⟩⟩ ⟨⟨0, 0⟩, ⟨1920, 1080⟩⟩
        ⟨0, 0⟩ ⟨4096, 4096⟩ none).finalSize.w =
      min 1920 (max 0 (if (4096 : Int) = 0 then twoThirds 1920 else min 4096 (twoThirds 1920))) :=
  ⟨by decide, by decide, by decide, by decide,
   C3_placement_clamp.1 none ⟨⟨0, 0⟩, ⟨2000, 2000⟩⟩ ⟨⟨0, 0⟩, ⟨1920, 1080⟩⟩
     ⟨0, 0⟩ ⟨4096, 4096⟩ none (by decide) (by decide) (by decide) (by decide)⟩

/-- C5: when a move grab finalizes with the window alive, the window is
re-mapped at `initial_window_position + (pointer_now − pointer_initial)`
rounded to integers with keyboard focus reassigned, an explicit position
always bypasses the persisted/centering placement, and the concrete example
(100,100) with pointer (150,150)→(200,130) lands at (150,80). -/
theorem C5_move_grab_finalize :
    (∀ (p : Point) (c n : PointQ),
      drop_move true p c n =
        { remapPosition := some (to_i32_round ⟨(p.x : ℚ) + (n.x - c.x), (p.y : ℚ) + (n.y - c.y)⟩)
          focusSet := true }) ∧
    (∀ (last_geometry : Option Rectangle) (win_geo geometry : Rectangle)
        (min_size max_size : Size) (loc : Point),
      (map_window_internal last_geometry win_geo geometry min_size max_size (some loc)).position =
        loc) ∧
    drop_move true ⟨100, 100⟩ ⟨150, 150⟩ ⟨200, 130⟩ =
      { remapPosition := some ⟨150, 80⟩, focusSet := true } := by
  refine ⟨fun p c n => rfl, fun l w g mn mx loc => ?_, ?_⟩
  · cases l <;> rfl
  · show drop_move true ⟨100, 100⟩ ⟨150, 150⟩ ⟨200, 130⟩ = _
    simp only [drop_move, to_i32_round, f64Round, if_true]
    norm_num

/-- C2 counterexample: `fullscreen_request` checks only the output-name key,
never whether the window is already some output's fullscreen window. With
window 1 fullscreen on output "A", a request for output "B" is not ignored:
window 1 ends up holding both slots and a configure is sent. -/
theorem C2_fullscreen_double_slot_counterexample :
    window_is_fullscreen [("A", 1)] 1 = true ∧
    fullscreen_request [("A", 1)] 1 "B" ≠ ([("A", 1)], false) ∧
    (fullscreen_request [("A", 1)] 1 "B").1 = [("A", 1), ("B", 1)] ∧
    hmGet (fullscreen_request [("A", 1)] 1 "B").1 "A" = some 1 ∧
    hmGet (fullscreen_request [("A", 1)] 1 "B").1 "B" = some 1 :=
  ⟨by decide, by decide, by decide, by decide, by decide⟩

/-- C2 amended: a fullscreen request is a no-op (map unchanged, no configure)
exactly when the target output's name already has a fullscreen entry;
otherwise the window is recorded in that slot, other slots are untouched and
key uniqueness is preserved; of two requests for the same output the second
is ignored and the slot still holds the first window. (The code performs no
check that the window is already another output's fullscreen window.) -/
theorem C2_fullscreen_exclusive_per_output_name :
    (∀ (fs : List (String × WindowId)) (w : WindowId) (o : String),
      hmContainsKey fs o = true → fullscreen_request fs w o = (fs, false)) ∧
    (∀ (fs : List (String × WindowId)) (w : WindowId) (o : String),
      hmContainsKey fs o = false →
        (fullscreen_request fs w o).2 = true ∧
        hmGet (fullscreen_request fs w o).1 o = some w) ∧
    (∀ (fs : List (String × WindowId)) (w : WindowId) (o k : String), k ≠ o →
      hmGet (fullscreen_request fs w o).1 k = hmGet fs k) ∧
    (∀ (fs : List (String × WindowId)) (w : WindowId) (o : String),
      (fs.map Prod.fst).Nodup → ((fullscreen_request fs w o).1.map Prod.fst).Nodup) ∧
    (∀ (fs : List (String × WindowId)) (w1 w2 : WindowId) (o : String),
      hmContainsKey fs o = false →
        fullscreen_request (fullscreen_request fs w1 o).1 w2 o =
          ((fullscreen_request fs w1 o).1, false) ∧
        hmGet (fullscreen_request fs w1 o).1 o = some w1) := by
  refine ⟨?_, ?_, ?_, ?_, ?_⟩
  · intro fs w o h
    simp [fullscreen_request, h]
  · intro fs w o h
    simp [fullscreen_request, h, hmGet_hmInsert_self]
  · intro fs w o k hk
    by_cases h : hmContainsKey fs o = true
    · simp [fullscreen_request, h]
    · simp [fullscreen_request, h, hmGet_hmInsert_ne fs o k w hk]
  · intro fs w o h
    by_cases hc : hmContainsKey fs o = true
    · simpa [fullscreen_request, hc] using h
    · simp only [fullscreen_request, hc, Bool.false_eq_true, if_false]
      exact hmInsert_keys_nodup fs o w h
  · intro fs w1 w2 o h
    have h1 : (fullscreen_request fs w1 o).1 = hmInsert fs o w1 := by
      simp [fullscreen_request, h]
    constructor
    · rw [h1]
      simp [fullscreen_request, hmContainsKey_hmInsert_self]
    · rw [h1]
      exact hmGet_hmInsert_self fs o w1

/-- C2 witness: the amended second-request property at a concrete input. -/
theorem C2_fullscreen_exclusive_witness :
    hmContainsKey [("A", (1 : WindowId))] "B" = false ∧
    (fullscreen_request (fullscreen_request [("A", 1)] 2 "B").1 3 "B" =
        ((fullscreen_request [("A", 1)] 2 "B").1, false) ∧
      hmGet (fullscreen_request [("A", 1)] 2 "B").1 "B" = some 2) :=
  ⟨by decide,
   C2_fullscreen_exclusive_per_output_name.2.2.2.2 [("A", 1)] 2 3 "B" (by decide)⟩

lemma C4_active_example :
    activeAxisValue (edgeIntersects edgeRIGHT (edgeLEFT ||| edgeRIGHT))
      (edgeIntersects edgeRIGHT edgeLEFT) (Size.mk 400 600).w
      ((PointQ.mk 500 0).x - (PointQ.mk 0 0).x) = 900 := by
  have h1 : edgeIntersects edgeRIGHT (edgeLEFT ||| edgeRIGHT) = true := by decide
  have h2 : edgeIntersects edgeRIGHT edgeLEFT = false := by decide
  simp only [activeAxisValue, h1, h2, if_true, Bool.false_eq_true, if_false]
  have hq : ((400 : ℤ) : ℚ) + ((500 : ℚ) - (0 : ℚ)) = ((900 : ℤ) : ℚ) := by norm_num
  show ratTrunc (((400 : ℤ) : ℚ) + ((500 : ℚ) - (0 : ℚ))) = 900
  rw [hq, ratTrunc_intCast]

/-- C4: on a resize-grab motion with the window alive, the negotiated size is
the initial size plus the signed pointer delta on each active axis (negated
for LEFT/TOP), clamped below by `max(min_size, 1)` and above by the max size
with 0 meaning unbounded; in particular dragging the right edge by +500 with
initial width 400 and max width 800 yields 800. -/
theorem C4_resize_motion_clamp :
    (∀ (edges : Nat) (s ev : PointQ) (init mn mx : Size),
      max mn.w 1 ≤ i32_max →
      activeAxisValue (edgeIntersects edges (edgeLEFT ||| edgeRIGHT))
          (edgeIntersects edges edgeLEFT) init.w (ev.x - s.x) ≤ i32_max →
      (resize_motion edges s ev init mn mx).w =
        (if mx.w = 0 then
          max (max mn.w 1)
            (activeAxisValue (edgeIntersects edges (edgeLEFT ||| edgeRIGHT))
              (edgeIntersects edges edgeLEFT) init.w (ev.x - s.x))
        else
          min mx.w (max (max mn.w 1)
            (activeAxisValue (edgeIntersects edges (edgeLEFT ||| edgeRIGHT))
              (edgeIntersects edges edgeLEFT) init.w (ev.x - s.x))))) ∧
    (∀ (edges : Nat) (s ev : PointQ) (init mn mx : Size),
      max mn.h 1 ≤ i32_max →
      activeAxisValue (edgeIntersects edges (edgeTOP ||| edgeBOTTOM))
          (edgeIntersects edges edgeTOP) init.h (ev.y - s.y) ≤ i32_max →
      (resize_motion edges s ev init mn mx).h =
        (if mx.h = 0 then
          max (max mn.h 1)
            (activeAxisValue (edgeIntersects edges (edgeTOP ||| edgeBOTTOM))
              (edgeIntersects edges edgeTOP) init.h (ev.y - s.y))
        else
          min mx.h (max (max mn.h 1)
            (activeAxisValue (edgeIntersects edges (edgeTOP ||| edgeBOTTOM))
              (edgeIntersects edges edgeTOP) init.h (ev.y - s.y))))) ∧
    resize_motion edgeRIGHT ⟨0, 0⟩ ⟨500, 0⟩ ⟨400, 600⟩ ⟨0, 0⟩ ⟨800, 0⟩ = ⟨800, 600⟩ := by
  refine ⟨?_, ?_, ?_⟩
  · intro edges s ev init mn mx h1 h2
    rw [resize_motion_w]
    by_cases hx : mx.w = 0
    · simp only [hx, if_true]
      omega
    · simp only [hx, if_false]
  · intro edges s ev init mn mx h1 h2
    rw [resize_motion_h]
    by_cases hx : mx.h = 0
    · simp only [hx, if_true]
      omega
    · simp only [hx, if_false]
  · have hw := resize_motion_w edgeRIGHT ⟨0, 0⟩ ⟨500, 0⟩ ⟨400, 600⟩ ⟨0, 0⟩ ⟨800, 0⟩
    have hh := resize_motion_h edgeRIGHT ⟨0, 0⟩ ⟨500, 0⟩ ⟨400, 600⟩ ⟨0, 0⟩ ⟨800, 0⟩
    rw [C4_active_example] at hw
    rw [show activeAxisValue (edgeIntersects edgeRIGHT (edgeTOP ||| edgeBOTTOM))
        (edgeIntersects edgeRIGHT edgeTOP) (Size.mk 400 600).h
        ((PointQ.mk 500 0).y - (PointQ.mk 0 0).y) = 600 from rfl] at hh
    rw [show resize_motion edgeRIGHT ⟨0, 0⟩ ⟨500, 0⟩ ⟨400, 600⟩ ⟨0, 0⟩ ⟨800, 0⟩ =
        (⟨(resize_motion edgeRIGHT ⟨0, 0⟩ ⟨500, 0⟩ ⟨400, 600⟩ ⟨0, 0⟩ ⟨800, 0⟩).w,
          (resize_motion edgeRIGHT ⟨0, 0⟩ ⟨500, 0⟩ ⟨400, 600⟩ ⟨0, 0⟩ ⟨800, 0⟩).h⟩ : Size)
      from rfl, hw, hh]
    norm_num [i32_max]

/-- C4 witness: the clamp applied to the right-edge +500 drag example. -/
theorem C4_resize_motion_clamp_witness :
    max ((Size.mk 0 0).w) 1 ≤ i32_max ∧
    activeAxisValue (edgeIntersects edgeRIGHT (edgeLEFT ||| edgeRIGHT))
        (edgeIntersects edgeRIGHT edgeLEFT) (Size.mk 400 600).w
        ((PointQ.mk 500 0).x - (PointQ.mk 0 0).x) ≤ i32_max ∧
    (resize_motion edgeRIGHT ⟨0, 0⟩ ⟨500, 0⟩ ⟨400, 600⟩ ⟨0, 0⟩ ⟨800, 0⟩).w = 800 := by
  refine ⟨by decide, ?_, ?_⟩
  · rw [C4_active_example]
    decide
  · have h := C4_resize_motion_clamp.1 edgeRIGHT ⟨0, 0⟩ ⟨500, 0⟩ ⟨400, 600⟩ ⟨0, 0⟩ ⟨800, 0⟩
      (by decide) (by rw [C4_active_example]; decide)
    rw [h, C4_active_example]
    decide

/-- C9: on a resize-grab button release with zero buttons pressed the grab is
unset; with the window alive and the per-window sub-state `Resizing d`, a
final configure proposing the last negotiated size with the resizing flag
cleared is sent and the sub-state becomes `WaitingForFinalAck d serial`;
with any other sub-state the code panics (modelled as `none`). -/
theorem C9_resize_button_release :
    (∀ (alive : Bool) (sz : Size) (st : ResizeState) (serial : Nat) (o : ButtonOutcome),
      resize_button true alive sz st serial = some o → o.unset_grab = true) ∧
    (∀ (sz : Size) (d : ResizeData) (serial : Nat),
      resize_button true true sz (ResizeState.Resizing d) serial =
        some ⟨true, some ⟨sz, false⟩, ResizeState.WaitingForFinalAck d serial⟩) ∧
    (∀ (sz : Size) (st : ResizeState) (serial : Nat),
      (∀ d, st ≠ ResizeState.Resizing d) → resize_button true true sz st serial = none) := by
  refine ⟨?_, fun sz d serial => rfl, ?_⟩
  · intro alive sz st serial o h
    cases alive <;> cases st <;> simp only [resize_button, if_true, if_false,
      Option.some.injEq, reduceCtorEq, Bool.false_eq_true] at h <;>
      first
      | exact absurd h (by simp)
      | rw [← h]
  · intro sz st serial h
    cases st with
    | Resizing d => exact absurd rfl (h d)
    | NotResizing => rfl
    | WaitingForFinalAck d s => rfl
    | WaitingForCommit d => rfl

/-- C9 witness: both release outcomes at concrete inputs. -/
theorem C9_resize_button_release_witness :
    resize_button true true ⟨640, 480⟩ ResizeState.NotResizing 7 = none ∧
    resize_button true true ⟨640, 480⟩ (ResizeState.Resizing ⟨8, ⟨0, 0⟩, ⟨640, 480⟩⟩) 7 =
      some ⟨true, some ⟨⟨640, 480⟩, false⟩,
        ResizeState.WaitingForFinalAck ⟨8, ⟨0, 0⟩, ⟨640, 480⟩⟩ 7⟩ :=
  ⟨C9_resize_button_release.2.2 ⟨640, 480⟩ ResizeState.NotResizing 7 (fun d => by simp),
   C9_resize_button_release.2.1 ⟨640, 480⟩ ⟨8, ⟨0, 0⟩, ⟨640, 480⟩⟩ 7⟩

/-- C10: when the target window occupies a fullscreen slot, a move request
starts no grab and leaves the workspace unchanged, and maximize and
drag-resize requests push no message onto the policy channel. -/
theorem C10_fullscreen_window_requests_ignored :
    ∀ (ws : Workspace) (window : WindowId) (maximized : Bool) (pointer_loc : PointQ)
      (output_geometry : Rectangle) (pending_size : Option Size) (o : String)
      (serial edges : Nat),
      window_is_fullscreen ws.fullscreen window = true →
      move_request ws window maximized pointer_loc output_geometry pending_size = (ws, none) ∧
      maximize_request ws.fullscreen window o = [] ∧
      resize_request ws.fullscreen window serial edges = [] := by
  intro ws window m pl og ps o s e h
  refine ⟨?_, ?_, ?_⟩ <;> simp [move_request, maximize_request, resize_request, h]

/-- C10 witness: the three silent no-ops at a concrete fullscreen window. -/
theorem C10_fullscreen_window_requests_ignored_witness :
    window_is_fullscreen [("HDMI-1", (7 : WindowId))] 7 = true ∧
    (move_request ⟨[("HDMI-1", 7)], [(7, ⟨3, 4⟩)]⟩ 7 false ⟨1, 2⟩
        ⟨⟨0, 0⟩, ⟨1920, 1080⟩⟩ none = (⟨[("HDMI-1", 7)], [(7, ⟨3, 4⟩)]⟩, none) ∧
      maximize_request [("HDMI-1", 7)] 7 "HDMI-1" = [] ∧
      resize_request [("HDMI-1", 7)] 7 1 8 = []) :=
  ⟨by decide,
   C10_fullscreen_window_requests_ignored ⟨[("HDMI-1", 7)], [(7, ⟨3, 4⟩)]⟩ 7 false ⟨1, 2⟩
     ⟨⟨0, 0⟩, ⟨1920, 1080⟩⟩ none "HDMI-1" 1 8 (by decide)⟩

/-- C6: over any interleaving of add/remove device events, the registry's
aggregated capability union equals the union of the currently registered
devices' capabilities restricted to {Keyboard, Pointer}; `add_device` reports
a capability as newly gained exactly when the device carries it (restricted
to the supported set) and it was absent from the union before the add —
equivalently, exactly on a false→true union transition — and `remove_device`
reports a capability as newly lost exactly when it was present before and is
absent from the union after the removal. -/
theorem C6_capability_diffing :
    (∀ (devs : String → List DeviceCapability) (ops : List DevOp) (c : DeviceCapability),
      c ∈ union_caps (run_devices devs ops) ↔
        ∃ p, p ∈ run_devices devs ops ∧ c ∈ supported_caps (devs p.1)) ∧
    (∀ (m : DevMap) (d : Device) (c : DeviceCapability),
      c ∈ (add_device m d).1 ↔ c ∈ supported_caps d.caps ∧ c ∉ union_caps m) ∧
    (∀ (m : DevMap) (d : Device) (c : DeviceCapability),
      c ∈ (remove_device m d).1 ↔
        c ∈ union_caps m ∧ c ∉ union_caps (remove_device m d).2) ∧
    (∀ (devs : String → List DeviceCapability) (ops : List DevOp) (id : String)
        (c : DeviceCapability),
      c ∈ (add_device (run_devices devs ops) ⟨id, devs id⟩).1 ↔
        (c ∉ union_caps (run_devices devs ops) ∧
          c ∈ union_caps (run_devices devs (DevOp.add id :: ops)))) := by
  refine ⟨?_, add_device_fst_mem, remove_device_fst_mem, ?_⟩
  · intro devs ops c
    rw [mem_union_caps]
    constructor
    · rintro ⟨e, he, hce⟩
      exact ⟨e, he, run_devices_entries devs ops e he ▸ hce⟩
    · rintro ⟨e, he, hce⟩
      exact ⟨e, he, (run_devices_entries devs ops e he).symm ▸ hce⟩
  · intro devs ops id c
    have hrun : run_devices devs (DevOp.add id :: ops) =
        hmInsert (run_devices devs ops) id (supported_caps (devs id)) := rfl
    constructor
    · intro h
      rcases (add_device_fst_mem _ _ c).1 h with ⟨hsup, hnot⟩
      refine ⟨hnot, ?_⟩
      rw [hrun, mem_union_hmInsert _ _ _ _ (run_devices_keys_nodup devs ops)]
      exact Or.inl hsup
    · rintro ⟨hnot, hafter⟩
      rw [hrun, mem_union_hmInsert _ _ _ _ (run_devices_keys_nodup devs ops)] at hafter
      rcases hafter with hsup | ⟨e, he, _, hce⟩
      · exact (add_device_fst_mem _ _ c).2 ⟨hsup, hnot⟩
      · exact absurd ((mem_union_caps _ c).2 ⟨e, he, hce⟩) hnot

/-- C7 counterexample: the x clamp's lower bound is the constant 0, not the
kept output's origin. With the single output at origin (1920, 0) sized
1280×720 and a motion landing at (−50, 100), the claim predicts x clamped
into [1920, 3200] but the code yields x = 0, below the claimed lower
bound. -/
theorem C7_clamp_counterexample :
    (pointer_motion [⟨"A", ⟨⟨1920, 0⟩, ⟨1280, 720⟩⟩⟩] ⟨"A", ⟨⟨1920, 0⟩, ⟨1280, 720⟩⟩⟩
        ⟨2000, 100⟩ ⟨-2050, 0⟩).1 = ⟨"A", ⟨⟨1920, 0⟩, ⟨1280, 720⟩⟩⟩ ∧
    (pointer_motion [⟨"A", ⟨⟨1920, 0⟩, ⟨1280, 720⟩⟩⟩] ⟨"A", ⟨⟨1920, 0⟩, ⟨1280, 720⟩⟩⟩
        ⟨2000, 100⟩ ⟨-2050, 0⟩).2.x = 0 ∧
    ¬((1920 : ℚ) ≤ 0) := by
  have hfind : ([⟨"A", ⟨⟨1920, 0⟩, ⟨1280, 720⟩⟩⟩] : List OutputM).find?
      (fun o => containsQ o.geometry
        ⟨(PointQ.mk 2000 100).x + (PointQ.mk (-2050) 0).x,
         (PointQ.mk 2000 100).y + (PointQ.mk (-2050) 0).y⟩) = none := by
    rw [List.find?_eq_none]
    intro o ho
    rw [List.mem_singleton] at ho
    subst ho
    rw [containsQ_eq_false_of_lt]
    · simp
    · norm_num
  refine ⟨?_, ?_, by norm_num⟩
  · simp only [pointer_motion, hfind, Option.getD_none]
  · simp only [pointer_motion, hfind, Option.getD_none]
    norm_num

/-- C7 amended: when no output's geometry contains the new position, the
previously active output is kept, and each coordinate is clamped into
[0, origin+size] of the kept output's geometry — the lower bound is 0, not
the output's origin. -/
theorem C7_pointer_clamp_amended :
    ∀ (outputs : List OutputM) (current_output : OutputM) (cl delta : PointQ),
      (∀ o ∈ outputs, containsQ o.geometry ⟨cl.x + delta.x, cl.y + delta.y⟩ = false) →
      pointer_motion outputs current_output cl delta =
        (current_output,
         ⟨min (max 0 (cl.x + delta.x))
            (((current_output.geometry.loc.x + current_output.geometry.size.w : Int) : ℚ)),
          min (max 0 (cl.y + delta.y))
            (((current_output.geometry.loc.y + current_output.geometry.size.h : Int) : ℚ))⟩) := by
  intro outputs co cl delta h
  have hnone : (outputs.find? fun o => containsQ o.geometry
      ⟨cl.x + delta.x, cl.y + delta.y⟩) = none := by
    rw [List.find?_eq_none]
    intro o ho
    simp [h o ho]
  simp only [pointer_motion, hnone, Option.getD_none]

/-- C7 witness: the amended clamp at the concrete off-output motion. -/
theorem C7_pointer_clamp_amended_witness :
    pointer_motion [⟨"A", ⟨⟨1920, 0⟩, ⟨1280, 720⟩⟩⟩] ⟨"A", ⟨⟨1920, 0⟩, ⟨1280, 720⟩⟩⟩
        ⟨2000, 100⟩ ⟨-2050, 0⟩ =
      (⟨"A", ⟨⟨1920, 0⟩, ⟨1280, 720⟩⟩⟩,
       ⟨min (max 0 ((PointQ.mk 2000 100).x + (PointQ.mk (-2050) 0).x))
          ((((OutputM.mk "A" ⟨⟨1920, 0⟩, ⟨1280, 720⟩⟩).geometry.loc.x +
             (OutputM.mk "A" ⟨⟨1920, 0⟩, ⟨1280, 720⟩⟩).geometry.size.w : Int) : ℚ)),
        min (max 0 ((PointQ.mk 2000 100).y + (PointQ.mk (-2050) 0).y))
          ((((OutputM.mk "A" ⟨⟨1920, 0⟩, ⟨1280, 720⟩⟩).geometry.loc.y +
             (OutputM.mk "A" ⟨⟨1920, 0⟩, ⟨1280, 720⟩⟩).geometry.size.h : Int) : ℚ))⟩) :=
  C7_pointer_clamp_amended [⟨"A", ⟨⟨1920, 0⟩, ⟨1280, 720⟩⟩⟩]
    ⟨"A", ⟨⟨1920, 0⟩, ⟨1280, 720⟩⟩⟩ ⟨2000, 100⟩ ⟨-2050, 0⟩
    (by
      intro o ho
      rw [List.mem_singleton] at ho
      subst ho
      rw [containsQ_eq_false_of_lt]
      norm_num)

/-- C8 counterexample: with a fullscreen window whose surface is under the
position and a single non-focus-capable Overlay layer hit at the position,
the claim predicts fallback focus on the fullscreen window (`some 5`), but
the code assigns no focus at all. -/
theorem C8_focus_under_counterexample :
    focus_under_fullscreen [⟨WlrLayer.Overlay, ⟨⟨0, 0⟩, ⟨100, 100⟩⟩, false, 7, true⟩]
        ⟨10, 10⟩ 5 true = none ∧
    (none : Option Nat) ≠ some 5 := by
  have hc : containsQ (⟨⟨0, 0⟩, ⟨100, 100⟩⟩ : Rectangle) ⟨10, 10⟩ = true := by
    simp only [containsQ, Bool.and_eq_true, decide_eq_true_eq]
    norm_num
  have hl : layer_under [⟨WlrLayer.Overlay, ⟨⟨0, 0⟩, ⟨100, 100⟩⟩, false, 7, true⟩]
      WlrLayer.Overlay ⟨10, 10⟩ =
      some ⟨WlrLayer.Overlay, ⟨⟨0, 0⟩, ⟨100, 100⟩⟩, false, 7, true⟩ := by
    unfold layer_under
    rw [List.find?_cons_of_pos _ (by simp [hc])]
  refine ⟨?_, by decide⟩
  unfold focus_under_fullscreen
  rw [hl]
  simp

/-- C8 amended: while the output has a fullscreen window, only the Overlay
band is consulted (never Top); a hit Overlay layer receives focus only if it
is focus-capable (and its surface hit-test succeeds), otherwise focus is
cleared; the fullscreen window is hit-tested only when no Overlay layer at
all is at the position. -/
theorem C8_focus_under_fullscreen_amended :
    (∀ (layers : List LayerSurface) (pos : PointQ) (fs : Nat) (fsat : Bool),
      focus_under_fullscreen layers pos fs fsat =
        focus_under_fullscreen
          (layers.filter fun l => decide (l.layer = WlrLayer.Overlay)) pos fs fsat) ∧
    (∀ (layers : List LayerSurface) (pos : PointQ) (fs : Nat) (fsat : Bool)
        (l : LayerSurface),
      layer_under layers WlrLayer.Overlay pos = some l →
      focus_under_fullscreen layers pos fs fsat =
        (if l.can_receive_keyboard_focus && l.surface_at then some l.surface else none)) ∧
    (∀ (layers : List LayerSurface) (pos : PointQ) (fs : Nat) (fsat : Bool),
      layer_under layers WlrLayer.Overlay pos = none →
      focus_under_fullscreen layers pos fs fsat =
        (if fsat then some fs else none)) := by
  refine ⟨?_, ?_, ?_⟩
  · intro layers pos fs fsat
    unfold focus_under_fullscreen
    rw [layer_under_filter_overlay]
  · intro layers pos fs fsat l h
    unfold focus_under_fullscreen
    rw [h]
    by_cases h1 : l.can_receive_keyboard_focus <;> by_cases h2 : l.surface_at <;>
      simp [h1, h2]
  · intro layers pos fs fsat h
    unfold focus_under_fullscreen
    rw [h]

/-- C8 witness: the fullscreen fallback fires when no Overlay layer exists. -/
theorem C8_focus_under_fullscreen_witness :
    layer_under [] WlrLayer.Overlay ⟨0, 0⟩ = none ∧
    focus_under_fullscreen [] ⟨0, 0⟩ 5 true = (if true then some 5 else none) :=
  ⟨rfl, C8_focus_under_fullscreen_amended.2.2 [] ⟨0, 0⟩ 5 true rfl⟩

end Electrum
